import Mathlib

/-!
Verification development for the zlux-server-framework plugin loader
(js/plugin-loader.js). The JavaScript source is shallowly embedded:
objects become structures, dynamic field types that matter for truthiness
become `JsVal`, thrown exceptions become `Except`, and external
collaborators (filesystem, `require`, the config service, the logger and
the event emitter) become explicit inputs/outputs. The third-party
`semver` library is modelled on the numeric core of semantic versioning
(`major.minor.patch`, no leading zeros); range expressions are modelled as
space-separated conjunctions of the common comparator forms.
-/

namespace ZluxPluginLoader

/-- A JavaScript value as far as truthiness and the fields `host`/`port`
are concerned: `undefined`, a string, or a number. -/
inductive JsVal where
  | undef : JsVal
  | str : String → JsVal
  | num : Nat → JsVal
deriving DecidableEq, Repr

/-- JS truthiness for the values we model: `undefined`, `""` and `0` are
falsy. -/
def JsVal.truthy : JsVal → Bool
  | .undef => false
  | .str s => !(s = "")
  | .num n => !(n = 0)

/-- Truthiness of an optional string field (`undefined` or a string). -/
def strTruthy : Option String → Bool
  | none => false
  | some s => !(s = "")

/-! ## Semantic version model (numeric core of the `semver` library) -/

structure SemVer where
  major : Nat
  minor : Nat
  patch : Nat
deriving DecidableEq, Repr

/-- Splits a character list on a separator character. -/
def splitOnChar (c : Char) : List Char → List (List Char)
  | [] => [[]]
  | x :: xs =>
    let r := splitOnChar c xs
    if x = c then [] :: r
    else
      match r with
      | [] => [[x]]
      | y :: ys => (x :: y) :: ys

/-- A nonempty all-digit component without a leading zero (except "0"). -/
def isNumComponent : List Char → Bool
  | [] => false
  | ['0'] => true
  | c :: cs => c.isDigit && !(c = '0') && cs.all Char.isDigit

/-- Digits to a natural number. -/
def digitsToNat (l : List Char) : Nat :=
  l.foldl (fun acc c => acc * 10 + (c.toNat - '0'.toNat)) 0

/-- Parses `major.minor.patch` from a character list. -/
def parseTriple (l : List Char) : Option SemVer :=
  match splitOnChar '.' l with
  | [a, b, c] =>
    if isNumComponent a && isNumComponent b && isNumComponent c then
      some ⟨digitsToNat a, digitsToNat b, digitsToNat c⟩
    else none
  | _ => none

/-- Embeds `semver.valid` on an optional string: truthy exactly when the string
parses as a version. -/
def semverValid : Option String → Bool
  | none => false
  | some s => (parseTriple s.toList).isSome

/-- Strict lexicographic order on version triples. -/
def svGt (a b : SemVer) : Bool :=
  (b.major < a.major) ||
  (a.major = b.major && (b.minor < a.minor ||
    (a.minor = b.minor && b.patch < a.patch)))

/-- Embeds `semver.gt` on strings; `none` models the `TypeError` the library
throws when an argument is not a valid version. -/
def semverGt (a b : String) : Option Bool :=
  match parseTriple a.toList, parseTriple b.toList with
  | some x, some y => some (svGt x y)
  | _, _ => none

/-- One comparator atom of a range expression. -/
def rangeAtomValid (l : List Char) : Bool :=
  l = ['*'] || (parseTriple l).isSome ||
  (match l with
   | '^' :: rest => (parseTriple rest).isSome
   | '~' :: rest => (parseTriple rest).isSome
   | '>' :: '=' :: rest => (parseTriple rest).isSome
   | '<' :: '=' :: rest => (parseTriple rest).isSome
   | '>' :: rest => (parseTriple rest).isSome
   | '<' :: rest => (parseTriple rest).isSome
   | '=' :: rest => (parseTriple rest).isSome
   | _ => false)

/-- Embeds `semver.validRange` on an optional string: the empty range is valid
(it means `*`), otherwise every space-separated atom must be valid. -/
def semverValidRange : Option String → Bool
  | none => false
  | some s =>
    if s = "" then true
    else (splitOnChar ' ' s.toList).all rangeAtomValid

/-- Non-strict comparison derived from `svGt`. -/
def svGe (a b : SemVer) : Bool := svGt a b || a = b

/-- Does a version satisfy one comparator atom. -/
def svSatisfiesAtom (v : SemVer) (l : List Char) : Bool :=
  if l = ['*'] then true
  else
    match l with
    | '^' :: rest =>
      match parseTriple rest with
      | some t => v.major = t.major && svGe v t
      | none => false
    | '~' :: rest =>
      match parseTriple rest with
      | some t => v.major = t.major && v.minor = t.minor && svGe v t
      | none => false
    | '>' :: '=' :: rest =>
      match parseTriple rest with
      | some t => svGe v t
      | none => false
    | '<' :: '=' :: rest =>
      match parseTriple rest with
      | some t => svGe t v
      | none => false
    | '>' :: rest =>
      match parseTriple rest with
      | some t => svGt v t
      | none => false
    | '<' :: rest =>
      match parseTriple rest with
      | some t => svGt t v
      | none => false
    | '=' :: rest =>
      match parseTriple rest with
      | some t => v = t
      | none => false
    | _ =>
      match parseTriple l with
      | some t => v = t
      | none => false

/-- Embeds `semver.satisfies` on optional strings: all atoms of the range hold. -/
def svSatisfies (version range : Option String) : Bool :=
  match version, range with
  | some v, some r =>
    match parseTriple v.toList with
    | some t =>
      if r = "" then true
      else (splitOnChar ' ' r.toList).all (svSatisfiesAtom t)
    | none => false
  | _, _ => false

/-! ## Data model: service definitions, plugins, configuration -/

/-- The raw fields of one entry of a plugin definition's `dataServices`
array. Absent JSON fields are `none`/`JsVal.undef`. -/
structure ServiceDef where
  name : Option String := none
  localName : Option String := none
  type : Option String := none
  version : Option String := none
  versionRange : Option String := none
  sourceName : Option String := none
  sourcePlugin : Option String := none
  host : JsVal := .undef
  port : JsVal := .undef
  filename : Option String := none
  fileName : Option String := none
  source : Option String := none
deriving DecidableEq, Repr

/-- Contents of `remote.json` as far as the loader reads it. -/
structure RemoteConfig where
  host : JsVal := .undef
  port : JsVal := .undef
deriving DecidableEq, Repr

/-- The configuration object handed to plugin/service constructors; the
loader only ever calls `getContents(["remote.json"])` on it. -/
structure PluginConfiguration where
  remoteConfig : Option RemoteConfig := none
deriving DecidableEq, Repr

/-- A raw plugin definition (already parsed from JSON by the excluded
filesystem collaborator). -/
structure PluginDef where
  identifier : Option String := none
  apiVersion : Option String := none
  pluginVersion : Option String := none
  pluginType : Option String := none
  host : JsVal := .undef
  port : JsVal := .undef
  filename : Option String := none
  authenticationCategory : Option String := none
  dataServices : Option (List ServiceDef) := none
  location : Option String := none
deriving DecidableEq, Repr

/-- Errors thrown by the loader (JS `throw new Error(...)`). -/
inductive Err where
  | invalidVersion (name version : Option String)
  | invalidVersionRange (localName versionRange : Option String)
  | noFileName
  | unknownPluginType (identifier pluginType : Option String)
  | invalidSemverArgument
  | alreadyRegistered
deriving DecidableEq, Repr

/-- A constructed data service object, after the `Service`-family
constructor ran (but its external `nodeModule` is only a loaded flag). -/
structure DataService where
  name : Option String := none
  localName : Option String := none
  type : Option String := none
  version : Option String := none
  versionRange : Option String := none
  sourceName : Option String := none
  sourcePlugin : Option String := none
  host : JsVal := .undef
  port : JsVal := .undef
  filename : Option String := none
  fileName : Option String := none
  source : Option String := none
  loaded : Bool := false
deriving DecidableEq, Repr

/-- Plugin kinds, one per entry of `plugInConstructorsByType`. -/
inductive PluginKind where
  | library
  | application
  | windowManager
  | bootstrap
  | desktop
  | nodeAuthentication
  | proxyConnector
deriving DecidableEq, Repr

/-- A service group as built by `addService` inside `initDataServices`:
`highestVersion` plus a map from version key to service. -/
structure ServiceGroup where
  highestVersion : Option String := none
  versions : List (Option String × DataService) := []
deriving DecidableEq, Repr

/-- A constructed plugin object. `dataServices` keeps the raw definitions
and `dataServicesFiltered` models the overwrite of `this.dataServices`
with the constructed services at the end of `initDataServices`. -/
structure Plugin where
  kind : PluginKind
  identifier : Option String := none
  apiVersion : Option String := none
  pluginVersion : Option String := none
  pluginType : Option String := none
  host : JsVal := .undef
  port : JsVal := .undef
  filename : Option String := none
  authenticationCategory : Option String := none
  dataServices : Option (List ServiceDef) := none
  location : Option String := none
  dynamicallyCreated : Bool := false
  dataServicesGrouped : List (Option String × ServiceGroup) := []
  importsGrouped : List (Option String × ServiceGroup) := []
  dataServicesFiltered : List DataService := []
deriving DecidableEq, Repr

/-! ## Service constructors and `makeDataService` -/

/-- The shared `Service` constructor: copies the definition's fields and,
when `version` is `undefined`, substitutes the owning plugin's
`apiVersion`. -/
def Service.make (d : ServiceDef) (plugin : Plugin) : DataService :=
  { name := d.name
    localName := d.localName
    type := d.type
    version := match d.version with
      | none => plugin.apiVersion
      | some v => some v
    versionRange := d.versionRange
    sourceName := d.sourceName
    sourcePlugin := d.sourcePlugin
    host := d.host
    port := d.port
    filename := d.filename
    fileName := d.fileName
    source := d.source }

/-- The `ExternalService` constructor: after the shared constructor, a
missing (falsy) `host`/`port` is taken from the parent plugin, and then,
when a remote configuration exists, from the remote configuration. -/
def ExternalService.make (d : ServiceDef) (configuration : PluginConfiguration)
    (plugin : Plugin) : DataService :=
  let s := Service.make d plugin
  let s := if !s.host.truthy then { s with host := plugin.host } else s
  let s := if !s.port.truthy then { s with port := plugin.port } else s
  match configuration.remoteConfig with
  | none => s
  | some rc =>
    let s := if !s.host.truthy then { s with host := rc.host } else s
    if !s.port.truthy then { s with port := rc.port } else s

/-- Embeds `validate` as dispatched through the prototype chain: an `Import`
checks its `versionRange`, every other service checks its `version`. -/
def DataService.validate (s : DataService) : Except Err Unit :=
  if s.type = some "import" then
    if semverValidRange s.versionRange then .ok ()
    else .error (.invalidVersionRange s.localName s.versionRange)
  else
    if semverValid s.version then .ok ()
    else .error (.invalidVersion s.name s.version)

/-- Embeds `makeDataService`: picks the constructor by `def.type`, then calls
`validate` on the fresh object; a `validate` throw aborts construction. -/
def makeDataService (d : ServiceDef) (configuration : PluginConfiguration)
    (plugin : Plugin) : Except Err DataService :=
  let dataservice :=
    if d.type = some "external" then ExternalService.make d configuration plugin
    else Service.make d plugin
  match dataservice.validate with
  | .ok _ => .ok dataservice
  | .error e => .error e

/-! ## Association lists (JS object maps keyed by field values) -/

def listLookup (k : Option String) : List (Option String × α) → Option α
  | [] => none
  | (k', v) :: rest => if k' = k then some v else listLookup k rest

def listInsert (k : Option String) (v : α) : List (Option String × α) → List (Option String × α)
  | [] => [(k, v)]
  | (k', v') :: rest => if k' = k then (k, v) :: rest else (k', v') :: listInsert k v rest

/-! ## `addService` and `initDataServices` -/

/-- The `highestVersion` update inside `addService`: keep the service's
version when the current highest is falsy, otherwise compare with
`semver.gt`, which throws on an unparseable argument. -/
def updateHighest (serviceVersion oldHighest : Option String) :
    Except Err (Option String) :=
  if !(strTruthy oldHighest) then .ok serviceVersion
  else
    match serviceVersion, oldHighest with
    | some v, some hv =>
      match semverGt v hv with
      | some b => .ok (if b then serviceVersion else some hv)
      | none => .error .invalidSemverArgument
    | _, _ => .error .invalidSemverArgument

/-- Embeds `addService` from `initDataServices`: finds or creates the group,
raises `highestVersion` when it is falsy or strictly below the new
version, then stores the service under its version key. -/
def addService (service : DataService) (name : Option String)
    (container : List (Option String × ServiceGroup)) :
    Except Err (List (Option String × ServiceGroup)) :=
  match updateHighest service.version
      ((listLookup name container).getD ⟨none, []⟩).highestVersion with
  | .error e => .error e
  | .ok hv =>
    .ok (listInsert name
      { highestVersion := hv,
        versions := listInsert service.version service
          (((listLookup name container).getD ⟨none, []⟩).versions) } container)

/-- Embeds `NodeService.loadImplementation`: dynamically created services come
from an in-memory source string, others need `filename` or `fileName`;
the `require` itself is an external effect, recorded as `loaded`. -/
def NodeService.loadImplementation (s : DataService) (dynamicallyCreated : Bool) :
    Except Err DataService :=
  if dynamicallyCreated then .ok { s with loaded := true }
  else if strTruthy s.filename then .ok { s with loaded := true }
  else if strTruthy s.fileName then .ok { s with loaded := true }
  else .error .noFileName

structure AuthManager where
  authPluginRequested : Option String → Option String → Bool

structure PluginContext where
  authManager : AuthManager

structure LoaderOptions where
  authManager : AuthManager
  pluginConfiguration : Option String → PluginConfiguration
  serviceConfiguration : Option String → Option String → PluginConfiguration

/-- Accumulator of the `initDataServices` loop. -/
structure InitState where
  grouped : List (Option String × ServiceGroup) := []
  imports : List (Option String × ServiceGroup) := []
  filtered : List DataService := []
deriving DecidableEq, Repr

/-- One iteration of the `initDataServices` loop over `this.dataServices`:
build and validate the service, then group it by its kind; a service of
unknown type is only warned about and dropped from the filtered list. -/
def initStep (opts : LoaderOptions) (p : Plugin) (acc : InitState) (d : ServiceDef) :
    Except Err InitState :=
  match makeDataService d (opts.serviceConfiguration p.identifier d.name) p with
  | .error e => .error e
  | .ok dataservice =>
    if dataservice.type = some "service" then
      match addService dataservice dataservice.name acc.grouped with
      | .error e => .error e
      | .ok g => .ok { acc with grouped := g, filtered := acc.filtered ++ [dataservice] }
    else if dataservice.type = some "import" then
      match addService dataservice dataservice.localName acc.imports with
      | .error e => .error e
      | .ok g => .ok { acc with imports := g, filtered := acc.filtered ++ [dataservice] }
    else if dataservice.type = some "nodeService" || dataservice.type = some "router" then
      match NodeService.loadImplementation dataservice p.dynamicallyCreated with
      | .error e => .error e
      | .ok loadedService =>
        match addService loadedService loadedService.name acc.grouped with
        | .error e => .error e
        | .ok g => .ok { acc with grouped := g, filtered := acc.filtered ++ [loadedService] }
    else if dataservice.type = some "external" then
      match addService dataservice dataservice.name acc.grouped with
      | .error e => .error e
      | .ok g => .ok { acc with grouped := g, filtered := acc.filtered ++ [dataservice] }
    else
      .ok acc

/-- The `for` loop of `initDataServices`: a throw aborts the remainder. -/
def initLoop (opts : LoaderOptions) (p : Plugin) :
    InitState → List ServiceDef → Except Err InitState
  | acc, [] => .ok acc
  | acc, d :: ds =>
    match initStep opts p acc d with
    | .error e => .error e
    | .ok next => initLoop opts p next ds

/-- Embeds `initDataServices`: a falsy `dataServices` returns immediately;
otherwise every definition is built, validated and grouped, and
`this.dataServices` is overwritten with the filtered constructed list.
Any throw aborts the whole plugin. -/
def initDataServices (p : Plugin) (opts : LoaderOptions) : Except Err Plugin :=
  match p.dataServices with
  | none => .ok p
  | some defs =>
    match initLoop opts p {} defs with
    | .error e => .error e
    | .ok final =>
      .ok { p with dataServicesGrouped := final.grouped,
                   importsGrouped := final.imports,
                   dataServicesFiltered := final.filtered }

/-! ## Plugin construction and validity -/

/-- Embeds `plugInConstructorsByType`. -/
def pluginKindOfType : Option String → Option PluginKind
  | some "library" => some .library
  | some "application" => some .application
  | some "windowManager" => some .windowManager
  | some "bootstrap" => some .bootstrap
  | some "desktop" => some .desktop
  | some "nodeAuthentication" => some .nodeAuthentication
  | some "proxyConnector" => some .proxyConnector
  | _ => none

/-- The shared `Plugin` constructor body (`Object.assign(this, def)`). -/
def Plugin.base (kind : PluginKind) (d : PluginDef) : Plugin :=
  { kind := kind
    identifier := d.identifier
    apiVersion := d.apiVersion
    pluginVersion := d.pluginVersion
    pluginType := d.pluginType
    host := d.host
    port := d.port
    filename := d.filename
    authenticationCategory := d.authenticationCategory
    dataServices := d.dataServices
    location := d.location }

/-- Embeds `makePlugin`: dispatches on `pluginType`; an unknown type throws. The
`ProxyConnectorPlugIn` constructor additionally defaults from the remote
configuration; its second branch assigns `this.host = remoteConfig.port`
(source line 391), so the embedded definition does the same. -/
def makePlugin (d : PluginDef) (pluginConfiguration : PluginConfiguration) :
    Except Err Plugin :=
  match pluginKindOfType d.pluginType with
  | none => .error (.unknownPluginType d.identifier d.pluginType)
  | some kind =>
    let p := Plugin.base kind d
    if kind = .proxyConnector then
      match pluginConfiguration.remoteConfig with
      | none => .ok p
      | some rc =>
        let p := if !p.host.truthy then { p with host := rc.host } else p
        let p := if !p.port.truthy then { p with host := rc.port } else p
        .ok p
    else .ok p

/-- Embeds `Plugin.prototype.isValid`. -/
def Plugin.baseIsValid (p : Plugin) : Bool :=
  strTruthy p.identifier && strTruthy p.pluginVersion
    && strTruthy p.apiVersion && strTruthy p.pluginType

/-- Embeds `isValid` as dispatched through the prototype chain: the base check,
plus the authentication-requested check for `NodeAuthenticationPlugIn`
(with its `filename`/`authenticationCategory` requirement) and for
`ProxyConnectorPlugIn` (with its `host`/`port` requirement). -/
def Plugin.isValid (p : Plugin) (context : PluginContext) : Bool :=
  match p.kind with
  | .nodeAuthentication =>
    if !(p.baseIsValid && strTruthy p.filename && strTruthy p.authenticationCategory) then
      false
    else if !(context.authManager.authPluginRequested p.identifier p.authenticationCategory) then
      false
    else true
  | .proxyConnector =>
    if !(p.baseIsValid && p.host.truthy && p.port.truthy) then
      false
    else if !(context.authManager.authPluginRequested p.identifier p.authenticationCategory) then
      false
    else true
  | _ => p.baseIsValid

/-! ## Dependency graph (spec-modelled) -/

/-- An entry of `processImports().rejects` (`{pluginId, validationError}`). -/
structure RejectEntry where
  pluginId : Option String
  status : String
deriving DecidableEq, Repr

/-- The raw-definition view of an already constructed plugin, used when it
serves as the baseline of a new dependency graph. -/
def Plugin.defView (p : Plugin) : PluginDef :=
  { identifier := p.identifier
    apiVersion := p.apiVersion
    pluginVersion := p.pluginVersion
    pluginType := p.pluginType
    host := p.host
    port := p.port
    filename := p.filename
    authenticationCategory := p.authenticationCategory
    dataServices := p.dataServices
    location := p.location }

/-- The version a service definition would carry after construction
(`apiVersion` defaulting). -/
def svcVersionOf (d : PluginDef) (s : ServiceDef) : Option String :=
  match s.version with
  | none => d.apiVersion
  | some v => some v

/-- Does plugin definition `d` expose, under `sourceName`, some version
satisfying `range`. -/
def exposesSatisfying (d : PluginDef) (sourceName range : Option String) : Bool :=
  (d.dataServices.getD []).any fun s =>
    !(s.type = some "import") && s.name = sourceName
      && svSatisfies (svcVersionOf d s) range

/-- The import requests of a plugin definition. -/
def importsOf (d : PluginDef) : List ServiceDef :=
  (d.dataServices.getD []).filter (fun s => s.type = some "import")

/-- Is one import request satisfiable by some available provider. -/
def importResolved (providers : List PluginDef) (imp : ServiceDef) : Bool :=
  providers.any fun pr =>
    pr.identifier = imp.sourcePlugin
      && exposesSatisfying pr imp.sourceName imp.versionRange

/-- Are all of a definition's imports satisfiable by the providers. -/
def allImportsResolved (providers : List PluginDef) (d : PluginDef) : Bool :=
  (importsOf d).all (importResolved providers)

/-- Removes the first element satisfying `p`, keeping the rest in order. -/
def splitFirst (p : α → Bool) : List α → Option (α × List α)
  | [] => none
  | x :: xs =>
    if p x then some (x, xs)
    else (splitFirst p xs).map (fun q => (q.1, x :: q.2))

/-- Scheduling loop of the modelled resolution: repeatedly accept the
first pending definition all of whose imports resolve against the
baseline and the already accepted definitions. -/
def kahnLoop (baseline : List PluginDef) :
    Nat → List PluginDef → List PluginDef → List PluginDef × List PluginDef
  | 0, accepted, pending => (accepted, pending)
  | fuel + 1, accepted, pending =>
    match splitFirst (allImportsResolved (baseline ++ accepted)) pending with
    | none => (accepted, pending)
    | some (d, rest) => kahnLoop baseline fuel (accepted ++ [d]) rest

/-- Keeps the first definition per identifier; later duplicates go to the
second list. -/
def dedupeGo (seen : List (Option String)) : List PluginDef → List PluginDef × List PluginDef
  | [] => ([], [])
  | d :: ds =>
    if d.identifier ∈ seen then
      let r := dedupeGo seen ds
      (r.1, d :: r.2)
    else
      let r := dedupeGo (d.identifier :: seen) ds
      (d :: r.1, r.2)

/-- Modelled from the spec: the `DependencyGraph` module (`./depgraph`)
that `installPlugins` instantiates is not part of the inspected source.
Following the specified contract of `processImports`, duplicate
identifiers within a batch are rejected (`DuplicateIdentifier`), imports
are resolved against the baseline plugins and the already scheduled
definitions, plugins whose imports cannot be resolved — including
cascades from rejected providers and cyclic groups — are rejected, and
the survivors are returned in a provider-before-consumer order that
refines first-seen insertion order. -/
def processImports (baseline : List Plugin) (added : List PluginDef) :
    List PluginDef × List RejectEntry :=
  let r := dedupeGo [] added
  let k := kahnLoop (baseline.map Plugin.defView) r.1.length [] r.1
  (k.1,
    r.2.map (fun d => ⟨d.identifier, "DuplicateIdentifier"⟩)
      ++ k.2.map (fun d => ⟨d.identifier, "UnresolvedImportOrCyclicDependency"⟩))

/-! ## The plugin loader -/

/-- Events the loader emits (`EventEmitter.emit`). -/
inductive Event where
  | givePluginAmount (n : Nat)
  | pluginAdded (identifier : Option String)
deriving DecidableEq, Repr

structure LoaderState where
  plugins : List Plugin := []
  pluginMap : List (Option String × Plugin) := []

/-- The outcome report of one batch: the plugins loaded by this batch and
every per-plugin failure, each with its logged reason. -/
structure InstallReport where
  loaded : List Plugin
  rejected : List RejectEntry

/-- The message of a thrown error, as logged by the loader. -/
def Err.message : Err → String
  | .invalidVersion _ _ => "invalid version"
  | .invalidVersionRange _ _ => "invalid version range"
  | .noFileName => "No file name for data service"
  | .unknownPluginType _ _ => "pluginType is unknown"
  | .invalidSemverArgument => "Invalid Version"
  | .alreadyRegistered => "plugin already registered"

/-- The body of the `installPlugins` loop for a single sorted definition:
`makePlugin`, the `isValid` check (a warning plus `continue` on failure),
`initDataServices`; `initStaticWebDependencies` and `init` only touch the
filesystem and the auth registry. Every failure is caught and logged. -/
def installOne (opts : LoaderOptions) (context : PluginContext) (d : PluginDef) :
    Except RejectEntry Plugin :=
  match makePlugin d (opts.pluginConfiguration d.identifier) with
  | .error e => .error ⟨d.identifier, e.message⟩
  | .ok plugin =>
    if !plugin.isValid context then
      .error ⟨d.identifier, "invalid plugin definition, skipping"⟩
    else
      match initDataServices plugin opts with
      | .error e => .error ⟨d.identifier, e.message⟩
      | .ok plugin => .ok plugin

/-- The `installPlugins` loop over the sorted plugins: each definition is
processed independently inside its own try/catch. -/
def installLoop (opts : LoaderOptions) (context : PluginContext) :
    List PluginDef → List Plugin × List RejectEntry
  | [] => ([], [])
  | d :: ds =>
    let r := installLoop opts context ds
    match installOne opts context d with
    | .ok p => (p :: r.1, r.2)
    | .error e => (r.1, e :: r.2)

/-- Embeds `installPlugins`: run the dependency graph over the batch, log its
rejects, load each surviving definition (failures are caught per
plugin), extend `this.plugins`/`this.pluginMap`, and finally emit
`givePluginAmount` with `this.plugins.length` followed by one
`pluginAdded` per element of `this.plugins`. -/
def installPlugins (st : LoaderState) (opts : LoaderOptions)
    (pluginDefs : List PluginDef) : LoaderState × List Event × InstallReport :=
  let context : PluginContext := ⟨opts.authManager⟩
  let graph := processImports st.plugins pluginDefs
  let run := installLoop opts context graph.1
  let plugins := st.plugins ++ run.1
  let pluginMap := run.1.foldl (fun m p => listInsert p.identifier p m) st.pluginMap
  ({ plugins := plugins, pluginMap := pluginMap },
   Event.givePluginAmount plugins.length :: plugins.map (fun p => .pluginAdded p.identifier),
   ⟨run.1, graph.2 ++ run.2⟩)

/-- Embeds `addDynamicPlugin`: a registered identifier throws immediately; then
`makePlugin`, marking as dynamically created, `initDataServices`, and
only after every throwing operation the loader state is extended and
`pluginAdded` emitted. The returned state is the loader's state after the
call (unchanged whenever a throw occurred, since the source mutates
`this.plugins`/`this.pluginMap` last). -/
def addDynamicPlugin (st : LoaderState) (opts : LoaderOptions) (pluginDef : PluginDef) :
    Option Err × LoaderState × List Event :=
  if (listLookup pluginDef.identifier st.pluginMap).isSome then
    (some .alreadyRegistered, st, [])
  else
    match makePlugin pluginDef (opts.pluginConfiguration pluginDef.identifier) with
    | .error e => (some e, st, [])
    | .ok plugin =>
      match initDataServices { plugin with dynamicallyCreated := true } opts with
      | .error e => (some e, st, [])
      | .ok plugin =>
        (none,
         { plugins := st.plugins ++ [plugin],
           pluginMap := listInsert plugin.identifier plugin st.pluginMap },
         [.pluginAdded plugin.identifier])

/-! ## Spec-side definitions used to state claims -/

/-- The host/port precedence the spec describes for external services: a
truthy value on the service definition wins, then the owning plugin's
value, then — when a remote configuration exists — the remote value. -/
def specPrecedence (own parent : JsVal) (remote : Option JsVal) : JsVal :=
  if own.truthy then own
  else if parent.truthy then parent
  else
    match remote with
    | some r => r
    | none => parent

/-- The keys of a service group's `versions` map. -/
def groupKeys (g : ServiceGroup) : List (Option String) :=
  g.versions.map (fun kv => kv.1)

/-- The group invariant of the spec: `highestVersion` is a present,
parseable key of `versions` and no key exceeds it under version order. -/
def GroupInv (g : ServiceGroup) : Prop :=
  ∃ hv t, g.highestVersion = some hv ∧ parseTriple hv.toList = some t
    ∧ some hv ∈ groupKeys g
    ∧ ∀ k ∈ groupKeys g, ∃ ks u, k = some ks ∧ parseTriple ks.toList = some u
        ∧ svGt u t = false

/-- Every group stored in a container satisfies the group invariant. -/
def ContInv (c : List (Option String × ServiceGroup)) : Prop :=
  ∀ n g, listLookup n c = some g → GroupInv g

/-- The identifiers reported by one batch, loaded and rejected together. -/
def reportIds (r : InstallReport) : List (Option String) :=
  r.loaded.map (fun p => p.identifier) ++ r.rejected.map (fun e => e.pluginId)

/-! ## Concrete fixtures -/

/-- An auth manager that accepts every authentication plugin. -/
def authAll : AuthManager := ⟨fun _ _ => true⟩

/-- An auth manager that was configured to request no plugin. -/
def authNone : AuthManager := ⟨fun _ _ => false⟩

/-- Options with empty configurations and the accepting auth manager. -/
def trivialOptions : LoaderOptions := ⟨authAll, fun _ => {}, fun _ _ => {}⟩

/-- Options with empty configurations and the refusing auth manager. -/
def refusingOptions : LoaderOptions := ⟨authNone, fun _ => {}, fun _ _ => {}⟩

/-- A remote configuration supplying both a host and a port. -/
def remoteBoth : RemoteConfig := { host := .str "remotehost", port := .num 7 }

/-- A proxy-connector definition lacking both host and port. -/
def proxyDef : PluginDef :=
  { identifier := some "org.zowe.proxy", apiVersion := some "1.0.0",
    pluginVersion := some "1.0.0", pluginType := some "proxyConnector" }

/-- A minimal valid library plugin definition. -/
def libraryDef (i : String) : PluginDef :=
  { identifier := some i, apiVersion := some "1.0.0",
    pluginVersion := some "1.0.0", pluginType := some "library" }

/-- A definition whose `pluginType` is not in the constructor table. -/
def badTypeDef : PluginDef :=
  { identifier := some "org.zowe.bad", apiVersion := some "1.0.0",
    pluginVersion := some "1.0.0", pluginType := some "mystery" }

/-- A constructed plugin registered before the batch under test. -/
def oldPlugin : Plugin := Plugin.base .library (libraryDef "org.zowe.old")

/-- A loader that already holds `oldPlugin`. -/
def loaderWithOld : LoaderState :=
  { plugins := [oldPlugin], pluginMap := [(some "org.zowe.old", oldPlugin)] }

/-- A service definition with a syntactically broken version. -/
def svcBadVersion : ServiceDef :=
  { name := some "svc", type := some "service", version := some "nope" }

/-- An import definition with a syntactically broken version range. -/
def importBadRange : ServiceDef :=
  { localName := some "imp", type := some "import", versionRange := some "x^" }

/-- A service definition with no version of its own. -/
def svcNoVersion : ServiceDef := { name := some "svc", type := some "service" }

/-- A plain service definition under a fixed name and version. -/
def svcNamed (v : String) : ServiceDef :=
  { name := some "svc", type := some "service", version := some v }

/-- A library plugin exposing `svc` at two versions. -/
def twoVersionPlugin : Plugin :=
  Plugin.base .library
    { identifier := some "org.zowe.two", apiVersion := some "1.0.0",
      pluginVersion := some "1.0.0", pluginType := some "library",
      dataServices := some [svcNamed "2.0.0", svcNamed "1.0.0"] }

/-- The plugin produced by running `initDataServices` on
`twoVersionPlugin` (evaluated, for use in closed statements). -/
def twoVersionResult : Plugin :=
  (initDataServices twoVersionPlugin trivialOptions).toOption.getD twoVersionPlugin

/-- The `svc` group of `twoVersionResult` (evaluated likewise). -/
def twoVersionGroup : ServiceGroup :=
  (listLookup (some "svc") twoVersionResult.dataServicesGrouped).getD {}

/-- A node-authentication plugin definition that is otherwise valid. -/
def nodeAuthDef : PluginDef :=
  { identifier := some "org.zowe.auth", apiVersion := some "1.0.0",
    pluginVersion := some "1.0.0", pluginType := some "nodeAuthentication",
    filename := some "auth.js", authenticationCategory := some "fallback" }

/-- The constructed node-authentication plugin. -/
def nodeAuthPlugin : Plugin := Plugin.base .nodeAuthentication nodeAuthDef

/-! ## Order lemmas for the version model -/

theorem svGt_irrefl (a : SemVer) : svGt a a = false := by
  simp [svGt]

theorem svGt_trans {a b c : SemVer} (h1 : svGt a b = true) (h2 : svGt b c = true) :
    svGt a c = true := by
  simp only [svGt, Bool.or_eq_true, Bool.and_eq_true, decide_eq_true_eq] at *
  omega

theorem svGt_asymm {a b : SemVer} (h : svGt a b = true) : svGt b a = false := by
  simp only [svGt, Bool.or_eq_true, Bool.and_eq_true, Bool.or_eq_false_iff,
    Bool.and_eq_false_iff, decide_eq_true_eq, decide_eq_false_iff_not] at *
  omega

theorem parseTriple_empty : parseTriple "".toList = none := by decide

theorem parse_ne_empty {s : String} {t : SemVer} (h : parseTriple s.toList = some t) :
    ¬(s = "") := by
  intro he
  rw [he, parseTriple_empty] at h
  exact Option.noConfusion h

theorem semverValid_iff {v : String} :
    semverValid (some v) = true ↔ ∃ t, parseTriple v.toList = some t := by
  simp [semverValid, Option.isSome_iff_exists]

/-! ## Field-preservation lemmas for service construction -/

theorem ExternalService_make_fields (d : ServiceDef) (configuration : PluginConfiguration)
    (p : Plugin) :
    (ExternalService.make d configuration p).version = (Service.make d p).version
    ∧ (ExternalService.make d configuration p).type = (Service.make d p).type
    ∧ (ExternalService.make d configuration p).name = (Service.make d p).name
    ∧ (ExternalService.make d configuration p).localName = (Service.make d p).localName
    ∧ (ExternalService.make d configuration p).versionRange = (Service.make d p).versionRange := by
  unfold ExternalService.make
  cases configuration.remoteConfig <;> dsimp only <;> split <;> split <;>
    first
    | exact ⟨rfl, rfl, rfl, rfl, rfl⟩
    | (split <;> split <;> exact ⟨rfl, rfl, rfl, rfl, rfl⟩)
    | (split <;> exact ⟨rfl, rfl, rfl, rfl, rfl⟩)

theorem Service_make_type (d : ServiceDef) (p : Plugin) :
    (Service.make d p).type = d.type := rfl

theorem Service_make_name (d : ServiceDef) (p : Plugin) :
    (Service.make d p).name = d.name := rfl

theorem Service_make_localName (d : ServiceDef) (p : Plugin) :
    (Service.make d p).localName = d.localName := rfl

theorem Service_make_versionRange (d : ServiceDef) (p : Plugin) :
    (Service.make d p).versionRange = d.versionRange := rfl

theorem validate_spec (s : DataService) :
    s.validate = (if s.type = some "import" then
        (if semverValidRange s.versionRange then .ok ()
         else .error (.invalidVersionRange s.localName s.versionRange))
      else (if semverValid s.version then .ok ()
         else .error (.invalidVersion s.name s.version))) := rfl

theorem makeDataService_spec (d : ServiceDef) (cfg : PluginConfiguration) (p : Plugin) :
    makeDataService d cfg p =
      ((fun s : DataService =>
        match s.validate with
        | .ok _ => Except.ok s
        | .error e => Except.error e)
       (if d.type = some "external" then ExternalService.make d cfg p
        else Service.make d p)) := rfl

theorem makeDataService_import_case (d : ServiceDef) (cfg : PluginConfiguration)
    (p : Plugin) (hi : d.type = some "import") :
    makeDataService d cfg p =
      (if semverValidRange d.versionRange then .ok (Service.make d p)
       else .error (.invalidVersionRange d.localName d.versionRange)) := by
  rw [makeDataService_spec]
  have hx : ¬(d.type = some "external") := by simp [hi]
  rw [if_neg hx]
  dsimp only
  rw [validate_spec, Service_make_type, Service_make_versionRange,
    Service_make_localName, if_pos hi]
  by_cases hr : semverValidRange d.versionRange
  · rw [if_pos hr, if_pos hr]
  · rw [if_neg hr, if_neg hr]

theorem makeDataService_external_case (d : ServiceDef) (cfg : PluginConfiguration)
    (p : Plugin) (hx : d.type = some "external") :
    makeDataService d cfg p =
      (if semverValid (Service.make d p).version then .ok (ExternalService.make d cfg p)
       else .error (.invalidVersion d.name (Service.make d p).version)) := by
  rw [makeDataService_spec, if_pos hx]
  dsimp only
  have hni : ¬((ExternalService.make d cfg p).type = some "import") := by
    rw [(ExternalService_make_fields d cfg p).2.1, Service_make_type, hx]
    simp
  rw [validate_spec, if_neg hni, (ExternalService_make_fields d cfg p).1,
    (ExternalService_make_fields d cfg p).2.2.1, Service_make_name]
  by_cases hr : semverValid (Service.make d p).version
  · rw [if_pos hr, if_pos hr]
  · rw [if_neg hr, if_neg hr]

theorem makeDataService_plain_case (d : ServiceDef) (cfg : PluginConfiguration)
    (p : Plugin) (hni : ¬(d.type = some "import")) (hx : ¬(d.type = some "external")) :
    makeDataService d cfg p =
      (if semverValid (Service.make d p).version then .ok (Service.make d p)
       else .error (.invalidVersion d.name (Service.make d p).version)) := by
  rw [makeDataService_spec, if_neg hx]
  dsimp only
  have hni' : ¬((Service.make d p).type = some "import") := by
    rw [Service_make_type]; exact hni
  rw [validate_spec, if_neg hni', Service_make_name]
  by_cases hr : semverValid (Service.make d p).version
  · rw [if_pos hr, if_pos hr]
  · rw [if_neg hr, if_neg hr]


/-- Claim C10: for an external service, host and port are resolved with
the fixed precedence service definition, then owning plugin, then remote
configuration; a later source never overrides an earlier one. -/
theorem C10_external_host_port_precedence (d : ServiceDef)
    (configuration : PluginConfiguration) (p : Plugin) :
    (ExternalService.make d configuration p).host
      = specPrecedence d.host p.host (configuration.remoteConfig.map (fun rc => rc.host))
    ∧ (ExternalService.make d configuration p).port
      = specPrecedence d.port p.port (configuration.remoteConfig.map (fun rc => rc.port)) := by
  unfold ExternalService.make Service.make specPrecedence
  cases configuration.remoteConfig <;> dsimp only [Option.map] <;>
    by_cases h1 : d.host.truthy <;> by_cases h2 : d.port.truthy <;>
    by_cases h3 : p.host.truthy <;> by_cases h4 : p.port.truthy <;>
    simp [h1, h2, h3, h4]

/-- Claim C5: evaluation at the failing input. A proxy-connector plugin
lacking host and port, given a remote configuration supplying both, ends
up with the remote port stored in `host`, `port` still undefined, and
`isValid` false — the host-and-port presence check cannot pass. -/
theorem C5_proxy_port_never_defaulted :
    (makePlugin proxyDef { remoteConfig := some remoteBoth }).map
      (fun p => (p.host, p.port, p.isValid ⟨authAll⟩))
      = .ok (.num 7, .undef, false) := rfl

/-- Claim C9: a service definition without a version gets the owning
plugin's apiVersion substituted before validation; when that apiVersion
is a valid version the service never fails with an invalid-version
error, and outside the import kind it validates successfully. -/
theorem C9_missing_version_defaults_to_apiVersion (d : ServiceDef)
    (configuration : PluginConfiguration) (p : Plugin)
    (hver : d.version = none) (hapi : semverValid p.apiVersion = true) :
    (¬(d.type = some "import") →
      ∃ s, makeDataService d configuration p = .ok s ∧ s.version = p.apiVersion)
    ∧ ∀ n v, ¬(makeDataService d configuration p = .error (.invalidVersion n v)) := by
  have hsv : (Service.make d p).version = p.apiVersion := by
    simp [Service.make, hver]
  have part1 : ¬(d.type = some "import") →
      ∃ s, makeDataService d configuration p = .ok s ∧ s.version = p.apiVersion := by
    intro hni
    by_cases hx : d.type = some "external"
    · refine ⟨ExternalService.make d configuration p, ?_, ?_⟩
      · rw [makeDataService_external_case d configuration p hx, hsv, if_pos hapi]
      · rw [(ExternalService_make_fields d configuration p).1, hsv]
    · refine ⟨Service.make d p, ?_, hsv⟩
      rw [makeDataService_plain_case d configuration p hni hx, hsv, if_pos hapi]
  refine ⟨part1, ?_⟩
  intro n v hcontra
  by_cases hi : d.type = some "import"
  · rw [makeDataService_import_case d configuration p hi] at hcontra
    by_cases hr : semverValidRange d.versionRange
    · rw [if_pos hr] at hcontra
      exact Except.noConfusion hcontra
    · rw [if_neg hr] at hcontra
      exact Err.noConfusion (Except.error.inj hcontra)
  · obtain ⟨s, hs, _⟩ := part1 hi
    rw [hs] at hcontra
    exact Except.noConfusion hcontra


theorem initStep_error_of_fail (opts : LoaderOptions) (p : Plugin) (acc : InitState)
    (d : ServiceDef) (e : Err)
    (h : makeDataService d (opts.serviceConfiguration p.identifier d.name) p = .error e) :
    initStep opts p acc d = .error e := by
  unfold initStep
  rw [h]

theorem initLoop_error_of_mem (opts : LoaderOptions) (p : Plugin) (d : ServiceDef)
    (h : ∀ cfg, ∃ e, makeDataService d cfg p = .error e) :
    ∀ (pre : List ServiceDef) (acc : InitState) (post : List ServiceDef),
      ∃ e, initLoop opts p acc (pre ++ d :: post) = .error e := by
  intro pre
  induction pre with
  | nil =>
    intro acc post
    obtain ⟨e, he⟩ := h (opts.serviceConfiguration p.identifier d.name)
    refine ⟨e, ?_⟩
    show initLoop opts p acc (d :: post) = .error e
    unfold initLoop
    rw [initStep_error_of_fail opts p acc d e he]
  | cons x xs ih =>
    intro acc post
    show ∃ e, initLoop opts p acc (x :: (xs ++ d :: post)) = .error e
    unfold initLoop
    cases hx : initStep opts p acc x with
    | error e => exact ⟨e, rfl⟩
    | ok next =>
      obtain ⟨e, he⟩ := ih next post
      exact ⟨e, he⟩

/-- Claim C2: validation is local and two-sided — a non-import service
with a syntactically invalid version fails with an invalid-version
error, an import with a syntactically invalid range fails with an
invalid-version-range error, and a failing service definition anywhere
in a plugin's dataServices list makes `initDataServices` of the whole
plugin fail. -/
theorem C2_service_validation_two_sided (d : ServiceDef)
    (configuration : PluginConfiguration) (p : Plugin) :
    (¬(d.type = some "import") → semverValid (Service.make d p).version = false →
      makeDataService d configuration p
        = .error (.invalidVersion d.name (Service.make d p).version))
    ∧ (d.type = some "import" → semverValidRange d.versionRange = false →
      makeDataService d configuration p
        = .error (.invalidVersionRange d.localName d.versionRange))
    ∧ (∀ (plugin : Plugin) (opts : LoaderOptions) (pre post : List ServiceDef),
        plugin.dataServices = some (pre ++ d :: post) →
        (∀ cfg, ∃ e, makeDataService d cfg plugin = .error e) →
        ∃ e, initDataServices plugin opts = .error e) := by
  refine ⟨?_, ?_, ?_⟩
  · intro hni hbad
    by_cases hx : d.type = some "external"
    · rw [makeDataService_external_case d configuration p hx, if_neg (by rw [hbad]; simp)]
    · rw [makeDataService_plain_case d configuration p hni hx, if_neg (by rw [hbad]; simp)]
  · intro hi hbad
    rw [makeDataService_import_case d configuration p hi, if_neg (by rw [hbad]; simp)]
  · intro plugin opts pre post hds hfail
    obtain ⟨e, he⟩ := initLoop_error_of_mem opts plugin d hfail pre {} post
    refine ⟨e, ?_⟩
    simp [initDataServices, hds, he]



/-- Witness for C2 at an import with a broken range. -/
theorem C2_witness_import_bad_range :
    makeDataService importBadRange {} oldPlugin
      = .error (.invalidVersionRange (some "imp") (some "x^")) :=
  (C2_service_validation_two_sided importBadRange {} oldPlugin).2.1 rfl (by decide)

/-- Witness for C9 at a concrete service definition with no version. -/
theorem C9_witness_version_substituted :
    (makeDataService svcNoVersion {} oldPlugin).map (fun s => s.version)
      = .ok (some "1.0.0") := by
  obtain ⟨s, hs, hv⟩ :=
    (C9_missing_version_defaults_to_apiVersion svcNoVersion {} oldPlugin rfl
      (by decide)).1 (by decide)
  rw [hs]
  show Except.ok s.version = Except.ok (some "1.0.0")
  rw [hv]
  rfl

theorem addDynamicPlugin_shape (st : LoaderState) (opts : LoaderOptions) (d : PluginDef) :
    (∃ e, addDynamicPlugin st opts d = (some e, st, []))
    ∨ (∃ p, addDynamicPlugin st opts d =
        (none,
         { plugins := st.plugins ++ [p],
           pluginMap := listInsert p.identifier p st.pluginMap },
         [.pluginAdded p.identifier])) := by
  unfold addDynamicPlugin
  split
  · exact .inl ⟨_, rfl⟩
  · split
    · exact .inl ⟨_, rfl⟩
    · split
      · exact .inl ⟨_, rfl⟩
      · exact .inr ⟨_, rfl⟩

/-- Claim C6: dynamically adding a plugin whose identifier is already
registered fails with the already-registered error, and every failing
dynamic addition leaves the accepted plugin list and the plugin map
completely unchanged and emits nothing. -/
theorem C6_addDynamicPlugin_atomic (st : LoaderState) (opts : LoaderOptions)
    (d : PluginDef) :
    ((listLookup d.identifier st.pluginMap).isSome = true →
      (addDynamicPlugin st opts d).1 = some .alreadyRegistered)
    ∧ (∀ e, (addDynamicPlugin st opts d).1 = some e →
        (addDynamicPlugin st opts d).2.1.plugins = st.plugins
        ∧ (addDynamicPlugin st opts d).2.1.pluginMap = st.pluginMap
        ∧ (addDynamicPlugin st opts d).2.2 = []) := by
  constructor
  · intro hdup
    unfold addDynamicPlugin
    rw [if_pos hdup]
  · intro e he
    rcases addDynamicPlugin_shape st opts d with ⟨e', hsh⟩ | ⟨p, hsh⟩
    · rw [hsh]
      exact ⟨rfl, rfl, rfl⟩
    · rw [hsh] at he
      exact Option.noConfusion he

/-- Witness for C6 at a loader already holding the same identifier. -/
theorem C6_witness_duplicate_identifier :
    (addDynamicPlugin loaderWithOld trivialOptions (libraryDef "org.zowe.old")).1
      = some .alreadyRegistered :=
  (C6_addDynamicPlugin_atomic loaderWithOld trivialOptions
    (libraryDef "org.zowe.old")).1 (by decide)



theorem initDataServices_ok_shape {p : Plugin} {opts : LoaderOptions} {q : Plugin}
    (h : initDataServices p opts = .ok q) :
    q = p ∨ ∃ final : InitState,
      q = { p with dataServicesGrouped := final.grouped,
                   importsGrouped := final.imports,
                   dataServicesFiltered := final.filtered } := by
  unfold initDataServices at h
  split at h
  · left
    exact (Except.ok.inj h).symm
  · split at h
    · exact Except.noConfusion h
    · right
      exact ⟨_, (Except.ok.inj h).symm⟩

theorem initDataServices_isValid {p : Plugin} {opts : LoaderOptions} {q : Plugin}
    (h : initDataServices p opts = .ok q) (context : PluginContext) :
    q.isValid context = p.isValid context := by
  rcases initDataServices_ok_shape h with rfl | ⟨final, rfl⟩
  · rfl
  · rfl

theorem installOne_ok_isValid {opts : LoaderOptions} {context : PluginContext}
    {d : PluginDef} {q : Plugin} (h : installOne opts context d = .ok q) :
    q.isValid context = true := by
  unfold installOne at h
  split at h
  · exact Except.noConfusion h
  · rename_i plugin hmk
    split at h
    · exact Except.noConfusion h
    · rename_i hvalid
      split at h
      · exact Except.noConfusion h
      · rename_i q' hinit
        have hq : q' = q := Except.ok.inj h
        rw [← hq, initDataServices_isValid hinit context]
        simp only [Bool.not_eq_true] at hvalid
        revert hvalid
        cases plugin.isValid context <;> simp

/-- Claim C8: a node-authentication plugin is valid exactly when the base
check passes, `filename` and `authenticationCategory` are present, and
the auth manager reports the plugin and its category as requested; a
plugin that was not requested is never loaded by the batch loop. -/
theorem C8_nodeAuth_requested_required (p : Plugin) (opts : LoaderOptions)
    (hk : p.kind = .nodeAuthentication) :
    (∀ context : PluginContext, p.isValid context =
      (p.baseIsValid && strTruthy p.filename && strTruthy p.authenticationCategory
        && context.authManager.authPluginRequested p.identifier p.authenticationCategory))
    ∧ (opts.authManager.authPluginRequested p.identifier p.authenticationCategory = false →
        ∀ defs, ¬(p ∈ (installLoop opts ⟨opts.authManager⟩ defs).1)) := by
  have part1 : ∀ context : PluginContext, p.isValid context =
      (p.baseIsValid && strTruthy p.filename && strTruthy p.authenticationCategory
        && context.authManager.authPluginRequested p.identifier p.authenticationCategory) := by
    intro context
    unfold Plugin.isValid
    rw [hk]
    by_cases h1 : (p.baseIsValid && strTruthy p.filename
        && strTruthy p.authenticationCategory) = true
    · by_cases h2 : context.authManager.authPluginRequested p.identifier
          p.authenticationCategory = true
      · simp [h1, h2]
      · simp only [Bool.not_eq_true] at h2
        simp [h1, h2]
    · simp only [Bool.not_eq_true] at h1
      simp [h1]
  refine ⟨part1, ?_⟩
  intro hreq defs
  induction defs with
  | nil => simp [installLoop]
  | cons d ds ih =>
    intro hmem
    unfold installLoop at hmem
    revert hmem
    cases hone : installOne opts ⟨opts.authManager⟩ d with
    | error e =>
      intro hmem
      exact ih hmem
    | ok q =>
      intro hmem
      rcases List.mem_cons.mp hmem with rfl | hmem'
      · have hv := installOne_ok_isValid hone
        rw [part1 ⟨opts.authManager⟩, hreq] at hv
        simp at hv
      · exact ih hmem'

/-- Witness for C8: a concrete, otherwise valid node-authentication
plugin is invalid when the auth manager did not request it. -/
theorem C8_witness_not_requested :
    nodeAuthPlugin.isValid ⟨authNone⟩ = false := by
  rw [(C8_nodeAuth_requested_required nodeAuthPlugin refusingOptions rfl).1 ⟨authNone⟩]
  decide

/-- Claim C7 counterexample: with one previously accepted plugin, a new
batch emits a per-plugin notification for the old plugin even though the
old plugin was not accepted in this batch, and the announced amount is
the cumulative count, not the batch count. -/
theorem C7_counterexample_previous_plugins_notified :
    (Event.pluginAdded (some "org.zowe.old"))
        ∈ (installPlugins loaderWithOld trivialOptions [libraryDef "org.zowe.new"]).2.1
    ∧ ¬((some "org.zowe.old") ∈ ((installPlugins loaderWithOld trivialOptions
        [libraryDef "org.zowe.new"]).2.2.loaded.map (fun p => p.identifier)))
    ∧ (installPlugins loaderWithOld trivialOptions
        [libraryDef "org.zowe.new"]).2.2.loaded.length = 1
    ∧ Event.givePluginAmount 2
        ∈ (installPlugins loaderWithOld trivialOptions [libraryDef "org.zowe.new"]).2.1 := by
  decide

/-- Claim C7 (amended): after a batch, the loader announces the
cumulative accepted plugin count once, then one `pluginAdded` per
element of the cumulative accepted list, in order — including plugins
accepted in earlier batches, not only those of this batch. -/
theorem C7_amended_notification_shape (st : LoaderState) (opts : LoaderOptions)
    (defs : List PluginDef) :
    (installPlugins st opts defs).2.1 =
      Event.givePluginAmount (installPlugins st opts defs).1.plugins.length
        :: (installPlugins st opts defs).1.plugins.map
            (fun p => Event.pluginAdded p.identifier) := rfl



theorem listLookup_listInsert_self (k : Option String) (v : α)
    (l : List (Option String × α)) :
    listLookup k (listInsert k v l) = some v := by
  induction l with
  | nil => simp [listInsert, listLookup]
  | cons kv rest ih =>
    obtain ⟨k', v'⟩ := kv
    by_cases h : k' = k
    · simp [listInsert, listLookup, h]
    · simp [listInsert, listLookup, h, ih]

theorem listLookup_listInsert_ne {m k : Option String} (hmk : ¬(m = k)) (v : α)
    (l : List (Option String × α)) :
    listLookup m (listInsert k v l) = listLookup m l := by
  have hkm : ¬(k = m) := fun h => hmk h.symm
  induction l with
  | nil => simp [listInsert, listLookup, hkm]
  | cons kv rest ih =>
    obtain ⟨k', v'⟩ := kv
    by_cases h1 : k' = k
    · have h2 : ¬(k' = m) := fun h => hkm (h1.symm.trans h)
      simp [listInsert, listLookup, h1, h2, hkm]
    · by_cases h2 : k' = m
      · simp [listInsert, listLookup, h1, h2, hmk]
      · simp [listInsert, listLookup, h1, h2, ih]

theorem mem_keys_listInsert_self (k : Option String) (v : α)
    (l : List (Option String × α)) :
    k ∈ (listInsert k v l).map (fun kv => kv.1) := by
  induction l with
  | nil => simp [listInsert]
  | cons kv rest ih =>
    obtain ⟨k', v'⟩ := kv
    by_cases h : k' = k
    · simp [listInsert, h]
    · simp only [listInsert]
      rw [if_neg h]
      simp only [List.map_cons, List.mem_cons]
      exact Or.inr ih

theorem mem_keys_listInsert_of_mem {m : Option String} (k : Option String) (v : α)
    {l : List (Option String × α)} (h : m ∈ l.map (fun kv => kv.1)) :
    m ∈ (listInsert k v l).map (fun kv => kv.1) := by
  induction l with
  | nil => simp at h
  | cons kv rest ih =>
    obtain ⟨k', v'⟩ := kv
    simp only [List.map_cons, List.mem_cons] at h
    by_cases h1 : k' = k
    · simp only [listInsert]
      rw [if_pos h1]
      simp only [List.map_cons, List.mem_cons]
      rcases h with rfl | h
      · exact Or.inl h1
      · exact Or.inr h
    · simp only [listInsert]
      rw [if_neg h1]
      simp only [List.map_cons, List.mem_cons]
      rcases h with rfl | h
      · exact Or.inl rfl
      · exact Or.inr (ih h)

theorem keys_listInsert_cases {m k : Option String} {v : α}
    {l : List (Option String × α)}
    (h : m ∈ (listInsert k v l).map (fun kv => kv.1)) :
    m = k ∨ m ∈ l.map (fun kv => kv.1) := by
  induction l with
  | nil =>
    simp [listInsert] at h
    exact Or.inl h
  | cons kv rest ih =>
    obtain ⟨k', v'⟩ := kv
    by_cases h1 : k' = k
    · rw [listInsert, if_pos h1] at h
      simp only [List.map_cons, List.mem_cons] at h
      rcases h with rfl | h
      · exact Or.inl rfl
      · exact Or.inr (by simp [h])
    · rw [listInsert, if_neg h1] at h
      simp only [List.map_cons, List.mem_cons] at h
      rcases h with rfl | h
      · exact Or.inr (by simp)
      · rcases ih h with rfl | hm
        · exact Or.inl rfl
        · exact Or.inr (by simp [hm])



theorem updateHighest_ok {sv old hv : Option String}
    (h : updateHighest sv old = .ok hv) :
    (strTruthy old = false ∧ hv = sv)
    ∨ (∃ v o b, sv = some v ∧ old = some o ∧ semverGt v o = some b
        ∧ hv = (if b then sv else some o)) := by
  unfold updateHighest at h
  by_cases hf : strTruthy old = true
  · rw [if_neg (by simp [hf])] at h
    cases sv with
    | none =>
      cases old with
      | none => simp [strTruthy] at hf
      | some o => simp at h
    | some v =>
      cases old with
      | none => simp [strTruthy] at hf
      | some o =>
        dsimp only at h
        cases hgt : semverGt v o with
        | none => rw [hgt] at h; exact Except.noConfusion h
        | some b =>
          rw [hgt] at h
          dsimp only at h
          exact Or.inr ⟨v, o, b, rfl, rfl, hgt, (Except.ok.inj h).symm⟩
  · rw [if_pos (by simp [Bool.not_eq_true] at hf; simp [hf])] at h
    simp only [Bool.not_eq_true] at hf
    exact Or.inl ⟨hf, (Except.ok.inj h).symm⟩

/-- What a successful `addService` does to the container at the inserted
name and at every other name. -/
theorem addService_ok_group {s : DataService} {name : Option String}
    {c c' : List (Option String × ServiceGroup)}
    (h : addService s name c = .ok c') :
    ∃ g' : ServiceGroup, listLookup name c' = some g'
      ∧ (∀ m, ¬(m = name) → listLookup m c' = listLookup m c)
      ∧ g'.versions = listInsert s.version s
          (((listLookup name c).getD ⟨none, []⟩).versions)
      ∧ updateHighest s.version
          ((listLookup name c).getD ⟨none, []⟩).highestVersion
          = .ok g'.highestVersion := by
  unfold addService at h
  split at h
  · exact Except.noConfusion h
  · rename_i hv hhv
    have hc' : c' = listInsert name
        { highestVersion := hv,
          versions := listInsert s.version s
            (((listLookup name c).getD ⟨none, []⟩).versions) } c :=
      (Except.ok.inj h).symm
    refine ⟨{ highestVersion := hv,
              versions := listInsert s.version s
                (((listLookup name c).getD ⟨none, []⟩).versions) },
            ?_, ?_, rfl, ?_⟩
    · rw [hc']
      exact listLookup_listInsert_self name _ c
    · intro m hm
      rw [hc']
      exact listLookup_listInsert_ne hm _ c
    · exact hhv



theorem addService_preserves_ContInv {s : DataService} {name : Option String}
    {c c' : List (Option String × ServiceGroup)}
    (hval : semverValid s.version = true) (hinv : ContInv c)
    (h : addService s name c = .ok c') : ContInv c' := by
  obtain ⟨vs, hsv⟩ : ∃ vs, s.version = some vs := by
    cases hsvv : s.version with
    | none => rw [hsvv] at hval; simp [semverValid] at hval
    | some vs => exact ⟨vs, rfl⟩
  have hval' : semverValid (some vs) = true := hsv ▸ hval
  obtain ⟨tv, htv⟩ := semverValid_iff.mp hval'
  obtain ⟨g', hlook, hother, hvers, hupd⟩ := addService_ok_group h
  intro n g hn
  by_cases hne : n = name
  · subst hne
    rw [hlook] at hn
    obtain rfl : g' = g := Option.some.inj hn
    rcases updateHighest_ok hupd with ⟨hfal, hhv⟩ | ⟨v, o, b, hv1, hv2, hgt, hhv⟩
    · -- the old highest was falsy: the group did not exist before
      cases hl0 : listLookup n c with
      | some g0 =>
        obtain ⟨hv0, t0, hhv0, ht0, _, _⟩ := hinv n g0 hl0
        rw [hl0] at hfal
        simp only [Option.getD_some] at hfal
        rw [hhv0] at hfal
        simp only [strTruthy] at hfal
        exact absurd (by simpa using hfal) (parse_ne_empty ht0)
      | none =>
        rw [hl0] at hvers
        simp only [Option.getD_none] at hvers
        rw [hsv] at hvers
        refine ⟨vs, tv, ?_, htv, ?_, ?_⟩
        · rw [hhv, hsv]
        · rw [groupKeys, hvers]
          simp [listInsert]
        · intro k hk
          rw [groupKeys, hvers] at hk
          simp [listInsert] at hk
          exact ⟨vs, tv, hk, htv, svGt_irrefl tv⟩
    · -- the old highest was compared with the new version
      rw [hsv] at hv1
      obtain rfl : vs = v := Option.some.inj hv1
      cases hl0 : listLookup n c with
      | none =>
        rw [hl0] at hv2
        simp only [Option.getD_none] at hv2
        exact Option.noConfusion hv2
      | some g0 =>
        rw [hl0] at hv2 hvers
        simp only [Option.getD_some] at hv2 hvers
        obtain ⟨hv0, t0, hhv0, ht0, hmem0, hall0⟩ := hinv n g0 hl0
        rw [hv2] at hhv0
        obtain rfl : o = hv0 := Option.some.inj hhv0
        have hb : b = svGt tv t0 := by
          unfold semverGt at hgt
          rw [htv, ht0] at hgt
          exact (Option.some.inj hgt).symm
        rw [hsv] at hvers
        cases hbv : b with
        | true =>
          have hgt' : svGt tv t0 = true := by rw [← hb, hbv]
          refine ⟨vs, tv, ?_, htv, ?_, ?_⟩
          · rw [hhv, hbv]
            simp [hsv, hbv]
          · rw [groupKeys, hvers]
            exact mem_keys_listInsert_self (some vs) s _
          · intro k hk
            rw [groupKeys, hvers] at hk
            rcases keys_listInsert_cases hk with rfl | hk0
            · exact ⟨vs, tv, rfl, htv, svGt_irrefl tv⟩
            · obtain ⟨ks, u, hks, hu, hle⟩ := hall0 k hk0
              refine ⟨ks, u, hks, hu, ?_⟩
              cases hut : svGt u tv with
              | false => rfl
              | true =>
                have h2 : svGt u t0 = true := svGt_trans hut hgt'
                rw [hle] at h2
                exact Bool.noConfusion h2
        | false =>
          have hgt' : svGt tv t0 = false := by rw [← hb, hbv]
          refine ⟨o, t0, ?_, ht0, ?_, ?_⟩
          · rw [hhv, hbv]
            simp
          · rw [groupKeys, hvers]
            exact mem_keys_listInsert_of_mem (some vs) s hmem0
          · intro k hk
            rw [groupKeys, hvers] at hk
            rcases keys_listInsert_cases hk with rfl | hk0
            · exact ⟨vs, tv, rfl, htv, hgt'⟩
            · exact hall0 k hk0
  · rw [hother n hne] at hn
    exact hinv n g hn



theorem loadImplementation_fields {s : DataService} {dyn : Bool} {s' : DataService}
    (h : NodeService.loadImplementation s dyn = .ok s') :
    s'.version = s.version ∧ s'.type = s.type ∧ s'.name = s.name := by
  unfold NodeService.loadImplementation at h
  split at h
  · obtain rfl := Except.ok.inj h
    exact ⟨rfl, rfl, rfl⟩
  · split at h
    · obtain rfl := Except.ok.inj h
      exact ⟨rfl, rfl, rfl⟩
    · split at h
      · obtain rfl := Except.ok.inj h
        exact ⟨rfl, rfl, rfl⟩
      · exact Except.noConfusion h

theorem makeDataService_ok_type {d : ServiceDef} {cfg : PluginConfiguration}
    {p : Plugin} {s : DataService} (h : makeDataService d cfg p = .ok s) :
    s.type = d.type := by
  rw [makeDataService_spec] at h
  dsimp only at h
  split at h
  · obtain rfl := Except.ok.inj h
    by_cases hx : d.type = some "external"
    · rw [if_pos hx, (ExternalService_make_fields d cfg p).2.1, Service_make_type]
    · rw [if_neg hx, Service_make_type]
  · exact Except.noConfusion h

theorem makeDataService_ok_version_valid {d : ServiceDef} {cfg : PluginConfiguration}
    {p : Plugin} {s : DataService} (h : makeDataService d cfg p = .ok s)
    (hni : ¬(s.type = some "import")) : semverValid s.version = true := by
  have hnd : ¬(d.type = some "import") := by
    rw [← makeDataService_ok_type h]
    exact hni
  by_cases hx : d.type = some "external"
  · rw [makeDataService_external_case d cfg p hx] at h
    by_cases hv : semverValid (Service.make d p).version = true
    · rw [if_pos hv] at h
      obtain rfl := Except.ok.inj h
      rw [(ExternalService_make_fields d cfg p).1]
      exact hv
    · rw [if_neg hv] at h
      exact Except.noConfusion h
  · rw [makeDataService_plain_case d cfg p hnd hx] at h
    by_cases hv : semverValid (Service.make d p).version = true
    · rw [if_pos hv] at h
      obtain rfl := Except.ok.inj h
      exact hv
    · rw [if_neg hv] at h
      exact Except.noConfusion h

theorem initStep_preserves_ContInv {opts : LoaderOptions} {p : Plugin}
    {acc : InitState} {d : ServiceDef} {acc' : InitState}
    (h : initStep opts p acc d = .ok acc') (hinv : ContInv acc.grouped) :
    ContInv acc'.grouped := by
  unfold initStep at h
  split at h
  · exact Except.noConfusion h
  · rename_i s hmk
    split at h
    · -- type = "service"
      rename_i hty
      split at h
      · exact Except.noConfusion h
      · rename_i g hadd
        obtain rfl := Except.ok.inj h
        exact addService_preserves_ContInv
          (makeDataService_ok_version_valid hmk (by simp [hty])) hinv hadd
    · split at h
      · -- type = "import": only the imports container changes
        split at h
        · exact Except.noConfusion h
        · obtain rfl := Except.ok.inj h
          exact hinv
      · split at h
        · -- nodeService or router
          rename_i hty2
          split at h
          · exact Except.noConfusion h
          · rename_i s2 hload
            split at h
            · exact Except.noConfusion h
            · rename_i g hadd
              obtain rfl := Except.ok.inj h
              have hval : semverValid s2.version = true := by
                rw [(loadImplementation_fields hload).1]
                refine makeDataService_ok_version_valid hmk ?_
                simp only [Bool.or_eq_true, decide_eq_true_eq] at hty2
                rcases hty2 with hty2 | hty2 <;> simp [hty2]
              exact addService_preserves_ContInv hval hinv hadd
        · split at h
          · -- type = "external"
            rename_i hty3
            split at h
            · exact Except.noConfusion h
            · rename_i g hadd
              obtain rfl := Except.ok.inj h
              exact addService_preserves_ContInv
                (makeDataService_ok_version_valid hmk (by simp [hty3])) hinv hadd
          · -- unknown type: dropped
            obtain rfl := Except.ok.inj h
            exact hinv

theorem initLoop_preserves_ContInv {opts : LoaderOptions} {p : Plugin} :
    ∀ {defs : List ServiceDef} {acc final : InitState},
      initLoop opts p acc defs = .ok final → ContInv acc.grouped →
      ContInv final.grouped := by
  intro defs
  induction defs with
  | nil =>
    intro acc final h hinv
    obtain rfl := Except.ok.inj h
    exact hinv
  | cons d ds ih =>
    intro acc final h hinv
    unfold initLoop at h
    split at h
    · exact Except.noConfusion h
    · rename_i next hstep
      exact ih h (initStep_preserves_ContInv hstep hinv)

theorem initDataServices_ContInv {p : Plugin} {opts : LoaderOptions} {q : Plugin}
    (h : initDataServices p opts = .ok q) (hempty : p.dataServicesGrouped = []) :
    ContInv q.dataServicesGrouped := by
  unfold initDataServices at h
  split at h
  · obtain rfl := Except.ok.inj h
    rw [hempty]
    intro n g hng
    exact Option.noConfusion hng
  · split at h
    · exact Except.noConfusion h
    · rename_i final hloop
      obtain rfl := Except.ok.inj h
      exact initLoop_preserves_ContInv hloop (fun n g hng => Option.noConfusion hng)



/-- Claim C4: for every service group built by `initDataServices`, the
group's `highestVersion` is a key of its `versions` map that no other
key exceeds under version order, and a single insertion never decreases
the `highestVersion` of the group it lands in. -/
theorem C4_highestVersion_is_max :
    (∀ (p : Plugin) (opts : LoaderOptions) (q : Plugin),
      p.dataServicesGrouped = [] →
      initDataServices p opts = .ok q →
      ∀ n g, listLookup n q.dataServicesGrouped = some g → GroupInv g)
    ∧ (∀ (s : DataService) (name : Option String)
        (c c' : List (Option String × ServiceGroup)) (g g' : ServiceGroup)
        (hv hv' : String) (t t' : SemVer),
        semverValid s.version = true →
        addService s name c = .ok c' →
        listLookup name c = some g → listLookup name c' = some g' →
        g.highestVersion = some hv → g'.highestVersion = some hv' →
        parseTriple hv.toList = some t → parseTriple hv'.toList = some t' →
        svGt t t' = false) := by
  constructor
  · intro p opts q hempty h n g hn
    exact initDataServices_ContInv h hempty n g hn
  · intro s name c c' g g' hv hv' t t' hval hadd hlg hlg' hghv hghv' hpt hpt'
    obtain ⟨g2, hlook, hother, hvers, hupd⟩ := addService_ok_group hadd
    obtain rfl : g2 = g' := Option.some.inj (hlook.symm.trans hlg')
    rcases updateHighest_ok hupd with ⟨hfal, hhv⟩ | ⟨v, o, b, hv1, hv2, hgt, hhv⟩
    · rw [hlg] at hfal
      simp only [Option.getD_some] at hfal
      rw [hghv] at hfal
      simp only [strTruthy] at hfal
      exact absurd (by simpa using hfal) (parse_ne_empty hpt)
    · rw [hlg] at hv2
      simp only [Option.getD_some] at hv2
      rw [hghv] at hv2
      obtain rfl : o = hv := (Option.some.inj hv2).symm
      obtain ⟨tv, hptv⟩ := semverValid_iff.mp (hv1 ▸ hval)
      have hb : b = svGt tv t := by
        unfold semverGt at hgt
        rw [hptv, hpt] at hgt
        exact (Option.some.inj hgt).symm
      rw [hghv'] at hhv
      cases hbv : b with
      | true =>
        rw [hbv] at hhv
        simp only [if_true] at hhv
        rw [hv1] at hhv
        obtain rfl : v = hv' := Option.some.inj hhv.symm
        have ht' : tv = t' := by
          rw [hptv] at hpt'
          exact Option.some.inj hpt'
        have hgt2 : svGt t' t = true := by rw [← ht', ← hb, hbv]
        exact svGt_asymm hgt2
      | false =>
        rw [hbv] at hhv
        simp only [Bool.false_eq_true, if_false] at hhv
        obtain rfl : hv' = o := Option.some.inj hhv
        have ht' : t = t' := by
          rw [hpt] at hpt'
          exact Option.some.inj hpt'
        rw [← ht']
        exact svGt_irrefl t

/-- Witness for C4: the group built for two exposed versions of one
service satisfies the invariant. -/
theorem C4_witness_two_versions : GroupInv twoVersionGroup := by
  have h1 : initDataServices twoVersionPlugin trivialOptions = .ok twoVersionResult := rfl
  have h2 : listLookup (some "svc") twoVersionResult.dataServicesGrouped
      = some twoVersionGroup := rfl
  exact C4_highestVersion_is_max.1 twoVersionPlugin trivialOptions twoVersionResult rfl h1
    (some "svc") twoVersionGroup h2



theorem installLoop_append (opts : LoaderOptions) (context : PluginContext)
    (l1 l2 : List PluginDef) :
    (installLoop opts context (l1 ++ l2)).1
      = (installLoop opts context l1).1 ++ (installLoop opts context l2).1
    ∧ (installLoop opts context (l1 ++ l2)).2
      = (installLoop opts context l1).2 ++ (installLoop opts context l2).2 := by
  induction l1 with
  | nil => simp [installLoop]
  | cons d ds ih =>
    simp only [List.cons_append, installLoop]
    cases installOne opts context d <;>
      simp [ih.1, ih.2]

/-- Claim C3: a plugin failing in the batch loop (unknown type, invalid
plugin definition, service validation error) is not fatal to the batch:
the loop result on `pre ++ failing :: post` keeps exactly the loads of
`pre` and `post`, and adds exactly one reject entry for the failing
plugin. -/
theorem C3_batch_failure_localized (opts : LoaderOptions) (context : PluginContext)
    (pre post : List PluginDef) (d : PluginDef) (r : RejectEntry)
    (hfail : installOne opts context d = .error r) :
    (installLoop opts context (pre ++ d :: post)).1
      = (installLoop opts context pre).1 ++ (installLoop opts context post).1
    ∧ (installLoop opts context (pre ++ d :: post)).2
      = (installLoop opts context pre).2 ++ r :: (installLoop opts context post).2 := by
  have hmid1 : (installLoop opts context (d :: post)).1
      = (installLoop opts context post).1 := by
    simp [installLoop, hfail]
  have hmid2 : (installLoop opts context (d :: post)).2
      = r :: (installLoop opts context post).2 := by
    simp [installLoop, hfail]
  constructor
  · rw [(installLoop_append opts context pre (d :: post)).1, hmid1]
  · rw [(installLoop_append opts context pre (d :: post)).2, hmid2]

/-- Witness for C3: with an unknown-type definition between two valid
library plugins, both neighbours are still loaded. -/
theorem C3_witness_unknown_type_skipped :
    (installLoop trivialOptions ⟨authAll⟩
        ([libraryDef "org.zowe.a"] ++ badTypeDef :: [libraryDef "org.zowe.b"])).1
      = (installLoop trivialOptions ⟨authAll⟩ [libraryDef "org.zowe.a"]).1
        ++ (installLoop trivialOptions ⟨authAll⟩ [libraryDef "org.zowe.b"]).1 :=
  (C3_batch_failure_localized trivialOptions ⟨authAll⟩ [libraryDef "org.zowe.a"]
    [libraryDef "org.zowe.b"] badTypeDef
    ⟨some "org.zowe.bad", "pluginType is unknown"⟩ rfl).1



theorem dedupeGo_perm (l : List PluginDef) :
    ∀ seen : List (Option String),
      List.Perm ((dedupeGo seen l).1.map (fun d => d.identifier)
        ++ (dedupeGo seen l).2.map (fun d => d.identifier))
        (l.map (fun d => d.identifier)) := by
  induction l with
  | nil => intro seen; simp [dedupeGo]
  | cons d ds ih =>
    intro seen
    simp only [dedupeGo]
    by_cases h : d.identifier ∈ seen
    · rw [if_pos h]
      dsimp only
      simp only [List.map_cons]
      refine List.Perm.trans List.perm_middle ?_
      exact (ih seen).cons d.identifier
    · rw [if_neg h]
      dsimp only
      simp only [List.map_cons, List.cons_append]
      exact (ih (d.identifier :: seen)).cons d.identifier

theorem splitFirst_perm {p : α → Bool} :
    ∀ {l : List α} {x : α} {rest : List α},
      splitFirst p l = some (x, rest) → List.Perm l (x :: rest) := by
  intro l
  induction l with
  | nil => intro x rest h; exact Option.noConfusion h
  | cons a as ih =>
    intro x rest h
    unfold splitFirst at h
    by_cases hp : p a
    · rw [if_pos hp] at h
      obtain ⟨rfl, rfl⟩ := Prod.mk.inj (Option.some.inj h)
      exact List.Perm.refl _
    · rw [if_neg hp] at h
      cases hs : splitFirst p as with
      | none => rw [hs] at h; exact Option.noConfusion h
      | some q =>
        obtain ⟨x0, rest0⟩ := q
        rw [hs] at h
        simp only [Option.map] at h
        obtain ⟨rfl, rfl⟩ := Prod.mk.inj (Option.some.inj h)
        refine List.Perm.trans ((ih hs).cons a) ?_
        exact List.Perm.swap x0 a rest0

theorem kahnLoop_perm (baseline : List PluginDef) :
    ∀ (fuel : Nat) (accepted pending : List PluginDef),
      List.Perm ((kahnLoop baseline fuel accepted pending).1
        ++ (kahnLoop baseline fuel accepted pending).2)
        (accepted ++ pending) := by
  intro fuel
  induction fuel with
  | zero => intro acc pend; simp [kahnLoop]
  | succ n ih =>
    intro acc pend
    unfold kahnLoop
    cases hs : splitFirst (allImportsResolved (baseline ++ acc)) pend with
    | none => exact List.Perm.refl _
    | some q =>
      obtain ⟨d, rest⟩ := q
      dsimp only
      refine List.Perm.trans (ih (acc ++ [d]) rest) ?_
      rw [List.append_assoc]
      exact List.Perm.append_left acc (List.Perm.symm (splitFirst_perm hs))



theorem makePlugin_identifier {d : PluginDef} {cfg : PluginConfiguration} {p : Plugin}
    (h : makePlugin d cfg = .ok p) : p.identifier = d.identifier := by
  unfold makePlugin at h
  split at h
  · exact Except.noConfusion h
  · split at h
    · split at h
      · obtain rfl := Except.ok.inj h
        rfl
      · obtain rfl := Except.ok.inj h
        split <;> split <;> rfl
    · obtain rfl := Except.ok.inj h
      rfl

theorem initDataServices_identifier {p : Plugin} {opts : LoaderOptions} {q : Plugin}
    (h : initDataServices p opts = .ok q) : q.identifier = p.identifier := by
  rcases initDataServices_ok_shape h with rfl | ⟨final, rfl⟩
  · rfl
  · rfl

theorem installOne_ok_identifier {opts : LoaderOptions} {context : PluginContext}
    {d : PluginDef} {q : Plugin} (h : installOne opts context d = .ok q) :
    q.identifier = d.identifier := by
  unfold installOne at h
  split at h
  · exact Except.noConfusion h
  · rename_i plugin hmk
    split at h
    · exact Except.noConfusion h
    · split at h
      · exact Except.noConfusion h
      · rename_i q' hinit
        obtain rfl := Except.ok.inj h
        rw [initDataServices_identifier hinit, makePlugin_identifier hmk]

theorem installOne_error_pluginId {opts : LoaderOptions} {context : PluginContext}
    {d : PluginDef} {e : RejectEntry} (h : installOne opts context d = .error e) :
    e.pluginId = d.identifier := by
  unfold installOne at h
  split at h
  · obtain rfl := (Except.error.inj h).symm
    rfl
  · split at h
    · obtain rfl := (Except.error.inj h).symm
      rfl
    · split at h
      · obtain rfl := (Except.error.inj h).symm
        rfl
      · exact Except.noConfusion h

theorem installLoop_perm (opts : LoaderOptions) (context : PluginContext)
    (defs : List PluginDef) :
    List.Perm ((installLoop opts context defs).1.map (fun p => p.identifier)
      ++ (installLoop opts context defs).2.map (fun e => e.pluginId))
      (defs.map (fun d => d.identifier)) := by
  induction defs with
  | nil => simp [installLoop]
  | cons d ds ih =>
    simp only [installLoop, List.map_cons]
    cases ho : installOne opts context d with
    | ok q =>
      simp only [List.map_cons, List.cons_append]
      rw [installOne_ok_identifier ho]
      exact ih.cons d.identifier
    | error e =>
      simp only [List.map_cons]
      refine List.Perm.trans List.perm_middle ?_
      rw [installOne_error_pluginId ho]
      exact ih.cons d.identifier

theorem processImports_perm (baseline : List Plugin) (added : List PluginDef) :
    List.Perm ((processImports baseline added).1.map (fun d => d.identifier)
      ++ (processImports baseline added).2.map (fun e => e.pluginId))
      (added.map (fun d => d.identifier)) := by
  unfold processImports
  dsimp only
  simp only [List.map_append, List.map_map]
  have hded := dedupeGo_perm added []
  have hkahn := (kahnLoop_perm (baseline.map Plugin.defView)
    (dedupeGo [] added).1.length [] (dedupeGo [] added).1).map
    (fun d => d.identifier)
  simp only [List.nil_append, List.map_append] at hkahn
  have e2 : List.map ((fun (e : RejectEntry) => e.pluginId)
        ∘ fun d => ({ pluginId := d.identifier, status := "DuplicateIdentifier" } : RejectEntry))
      (dedupeGo [] added).2
      = (dedupeGo [] added).2.map (fun d => d.identifier) := rfl
  have e3 : List.map ((fun (e : RejectEntry) => e.pluginId)
        ∘ fun d => ({ pluginId := d.identifier, status := "UnresolvedImportOrCyclicDependency" } : RejectEntry))
      (kahnLoop (baseline.map Plugin.defView) (dedupeGo [] added).1.length []
        (dedupeGo [] added).1).2
      = (kahnLoop (baseline.map Plugin.defView) (dedupeGo [] added).1.length []
        (dedupeGo [] added).1).2.map (fun d => d.identifier) := rfl
  rw [e2, e3]
  refine List.Perm.trans ?_ hded
  refine List.Perm.trans (List.Perm.append_left _ List.perm_append_comm) ?_
  rw [← List.append_assoc]
  exact hkahn.append_right _



/-- Claim C1: a batch partitions its input exactly — the identifiers of
the loaded plugins and of the reject entries together are a permutation
of the input identifiers, counts add up, and for duplicate-free inputs
no identifier is reported on both sides. The dependency-graph stage is
modelled from the spec (`processImports`). -/
theorem C1_partition_complete (st : LoaderState) (opts : LoaderOptions)
    (pluginDefs : List PluginDef) :
    ((installPlugins st opts pluginDefs).2.2.loaded.length
        + (installPlugins st opts pluginDefs).2.2.rejected.length
      = pluginDefs.length)
    ∧ List.Perm (reportIds (installPlugins st opts pluginDefs).2.2)
        (pluginDefs.map (fun d => d.identifier))
    ∧ ((pluginDefs.map (fun d => d.identifier)).Nodup →
        ∀ i, i ∈ (installPlugins st opts pluginDefs).2.2.loaded.map
            (fun p => p.identifier) →
          ¬(i ∈ (installPlugins st opts pluginDefs).2.2.rejected.map
            (fun e => e.pluginId))) := by
  have hperm : List.Perm (reportIds (installPlugins st opts pluginDefs).2.2)
      (pluginDefs.map (fun d => d.identifier)) := by
    unfold installPlugins reportIds
    dsimp only
    simp only [List.map_append]
    have hloop := installLoop_perm opts ⟨opts.authManager⟩
      (processImports st.plugins pluginDefs).1
    have hproc := processImports_perm st.plugins pluginDefs
    refine List.Perm.trans (List.Perm.append_left _ List.perm_append_comm) ?_
    rw [← List.append_assoc]
    exact List.Perm.trans (hloop.append_right _) hproc
  refine ⟨?_, hperm, ?_⟩
  · have hlen := hperm.length_eq
    simp only [reportIds, List.length_append, List.length_map] at hlen
    simpa using hlen
  · intro hnd i hiL hiR
    have hnodup : (reportIds (installPlugins st opts pluginDefs).2.2).Nodup :=
      (hperm.nodup_iff).mpr hnd
    rw [reportIds, List.nodup_append] at hnodup
    exact hnodup.2.2 hiL hiR

/-- Witness for C1 at a batch of one loadable and one unknown-type
definition: one loaded, one rejected, and the loaded identifier is not
among the rejected ones. -/
theorem C1_witness_two_defs :
    ((installPlugins {} trivialOptions [libraryDef "org.zowe.a", badTypeDef]).2.2.loaded.length
      + (installPlugins {} trivialOptions
          [libraryDef "org.zowe.a", badTypeDef]).2.2.rejected.length = 2)
    ∧ ¬((some "org.zowe.a") ∈ (installPlugins {} trivialOptions
        [libraryDef "org.zowe.a", badTypeDef]).2.2.rejected.map (fun e => e.pluginId)) :=
  ⟨(C1_partition_complete {} trivialOptions [libraryDef "org.zowe.a", badTypeDef]).1,
   (C1_partition_complete {} trivialOptions [libraryDef "org.zowe.a", badTypeDef]).2.2
     (by decide) (some "org.zowe.a") (by decide)⟩


end ZluxPluginLoader
